import Mathlib

/-!
Verification of the asynchronous logging core of spdlog
(`include/spdlog/details/thread_pool.h` and `thread_pool-inl.h`):
the message envelope (`async_msg`), the bounded blocking queue it travels
through, the producer-facing submission operations (`post_log`,
`post_flush`, `post_async_msg_`) and the per-worker drain loop
(`worker_loop_` / `process_next_msg_`), together with the pool
constructor and the shutdown protocol of the destructor.

The queue (`mpmc_blocking_q.h`), the record snapshot (`log_msg_buffer.h`),
the overflow-policy enum (`common.h`) and the `async_logger` callbacks are
declared and used by this code but their definitions are not part of the
sources under verification; they are modelled from the specification where
a claim depends on them, as marked in the doc comments below.
-/

namespace Spdlog

/-- Ghost annotation tracking where a log record's character data lives:
on the producer's call stack (the borrowed `log_msg` view) or in storage
owned by the envelope itself. -/
inductive Storage where
  | producerStack
  | selfContained
deriving DecidableEq, Repr

/-- The borrowed log record a producer hands to `post_log`
(`details::log_msg`): a non-owning view whose character data lives on the
producer's call stack. -/
structure log_msg where
  text : String
  storage : Storage := .producerStack
deriving DecidableEq, Repr

/-- The owning record snapshot (`details::log_msg_buffer`). -/
structure log_msg_buffer where
  text : String
  storage : Storage
deriving DecidableEq, Repr

/-- Modelled from the spec: `log_msg_buffer` is defined in
`log_msg_buffer.h`, which is not among the sources; per the spec the
payload of a `Log` envelope is "an owned, self-contained copy of a log
record ... it must not reference memory owned by the producer's call
stack". Its converting constructor copies the record's data into storage
owned by the buffer. -/
def log_msg_buffer.ofMsg (m : log_msg) : log_msg_buffer :=
  { text := m.text, storage := .selfContained }

/-- Default-constructed `log_msg_buffer{}` (used by the payload-less
`async_msg` constructor): empty and trivially self-contained. -/
def log_msg_buffer.empty : log_msg_buffer :=
  { text := "", storage := .selfContained }

/-- `enum class async_msg_type { log, flush, terminate }` from
`thread_pool.h`. -/
inductive async_msg_type where
  | log
  | flush
  | terminate
deriving DecidableEq, Repr

/-- The underlying integer tag of an `async_msg_type` value, as the C++
`switch` statement sees it. -/
def async_msg_type.toTag : async_msg_type → Nat
  | .log => 0
  | .flush => 1
  | .terminate => 2

/-- `std::shared_ptr<async_logger>`: `none` is the null pointer, `some i`
a handle on the front-end object with identity `i`. -/
abbrev async_logger_ptr := Option Nat

/-- The message envelope `async_msg` from `thread_pool.h`: derives from
`log_msg_buffer` (field `buffer` here), carries the kind tag and the
shared-ownership handle on the target front-end. In C++ the type is
move-only (its copy constructor is deleted); in this embedding envelopes
are values moved in and out of the queue, never duplicated by any
operation below. -/
structure async_msg where
  msg_type : async_msg_type := .log
  worker_ptr : async_logger_ptr := none
  buffer : log_msg_buffer := log_msg_buffer.empty
deriving DecidableEq, Repr

/-- The three-argument `async_msg` constructor
(`async_msg(async_logger_ptr &&worker, async_msg_type the_type, const details::log_msg &m)`):
snapshots the record into the owned buffer and takes ownership of the
moved-in handle. -/
def async_msg.mkLog (worker : async_logger_ptr) (the_type : async_msg_type)
    (m : log_msg) : async_msg :=
  { msg_type := the_type, worker_ptr := worker, buffer := log_msg_buffer.ofMsg m }

/-- The two-argument constructor
(`async_msg(async_logger_ptr &&worker, async_msg_type the_type)`):
default (empty) buffer. -/
def async_msg.mkCtl (worker : async_logger_ptr) (the_type : async_msg_type) : async_msg :=
  { msg_type := the_type, worker_ptr := worker, buffer := log_msg_buffer.empty }

/-- The one-argument constructor
(`explicit async_msg(async_msg_type the_type) : async_msg{nullptr, the_type}`):
delegates with a null worker handle. -/
def async_msg.ofType (the_type : async_msg_type) : async_msg :=
  async_msg.mkCtl none the_type

/-- Modelled from the spec: the bounded blocking queue
(`details::mpmc_blocking_queue<async_msg>`, file `mpmc_blocking_q.h` is
not among the sources). Fixed capacity, FIFO storage, monotone overrun
counter of envelopes discarded under the discard policy. -/
structure mpmc_blocking_queue where
  max_items : Nat
  items : List async_msg := []
  overrun : Nat := 0
deriving DecidableEq, Repr

/-- The queue as constructed by the pool: empty, zero overrun counter. -/
def mpmc_blocking_queue.init (q_max_items : Nat) : mpmc_blocking_queue :=
  { max_items := q_max_items }

/-- Modelled from the spec: blocking `enqueue`. "If full, the calling
thread suspends until space frees ...; then inserts at the tail. Never
drops data." `none` means the producer is suspended (the insertion has
not happened yet); `some` means the envelope was inserted at the tail. -/
def mpmc_blocking_queue.enqueue (q : mpmc_blocking_queue) (m : async_msg) :
    Option mpmc_blocking_queue :=
  if q.items.length < q.max_items then
    some { q with items := q.items ++ [m] }
  else
    none

/-- Modelled from the spec: non-blocking `enqueue_nowait`. "If full,
immediately discards `item` and increments `overrun_count`; otherwise
behaves like the blocking variant. Returns without suspending." -/
def mpmc_blocking_queue.enqueue_nowait (q : mpmc_blocking_queue) (m : async_msg) :
    mpmc_blocking_queue :=
  if q.items.length < q.max_items then
    { q with items := q.items ++ [m] }
  else
    { q with overrun := q.overrun + 1 }

/-- Modelled from the spec: `dequeue_for` pops the head envelope in FIFO
order; `none` is the timeout result ("no item", not an error). -/
def mpmc_blocking_queue.dequeue_for (q : mpmc_blocking_queue) :
    Option (async_msg × mpmc_blocking_queue) :=
  match q.items with
  | [] => none
  | m :: rest => some (m, { q with items := rest })

/-- The overflow policy (`async_overflow_policy` from `common.h`, not
among the sources). Modelled from the spec: "Exactly two policies, chosen
per call by the producer": block, and discard-on-full. -/
inductive async_overflow_policy where
  | block
  | discard
deriving DecidableEq, Repr

/-- `thread_pool::post_async_msg_`: dispatches on the overflow policy —
the block policy uses the blocking `enqueue`, anything else the
non-blocking `enqueue_nowait`. Result `none` means the producer is
suspended waiting for space (possible only under the block policy). -/
def post_async_msg_ (q : mpmc_blocking_queue) (new_msg : async_msg)
    (overflow_policy : async_overflow_policy) : Option mpmc_blocking_queue :=
  match overflow_policy with
  | .block => q.enqueue new_msg
  | .discard => some (q.enqueue_nowait new_msg)

/-- Result of `thread_pool::post_log`, making the ownership transfers of
the source explicit: the queue outcome, the envelope that was built and
moved into the queue, and what is left in the caller's moved-from
`worker_ptr` after the call. -/
structure post_log_result where
  queued : Option mpmc_blocking_queue
  moved_env : async_msg
  residual_ptr : async_logger_ptr
deriving DecidableEq, Repr

/-- `thread_pool::post_log`: builds the `Log` envelope with
`async_msg(std::move(worker_ptr), async_msg_type::log, msg)` — copying the
record into the envelope's owned buffer and moving the handle into the
envelope (the caller's shared pointer is null afterwards) — then hands the
envelope to `post_async_msg_` with the given policy. -/
def post_log (q : mpmc_blocking_queue) (worker_ptr : async_logger_ptr)
    (msg : log_msg) (overflow_policy : async_overflow_policy) : post_log_result :=
  let async_m := async_msg.mkLog worker_ptr .log msg
  { queued := post_async_msg_ q async_m overflow_policy
    moved_env := async_m
    residual_ptr := none }

/-- `thread_pool::post_flush`: builds a `Flush` envelope (no payload),
moving the handle in, and hands it to `post_async_msg_`. -/
def post_flush (q : mpmc_blocking_queue) (worker_ptr : async_logger_ptr)
    (overflow_policy : async_overflow_policy) : post_log_result :=
  let async_m := async_msg.mkCtl worker_ptr .flush
  { queued := post_async_msg_ q async_m overflow_policy
    moved_env := async_m
    residual_ptr := none }

/-- The externally visible effect of one drain-loop iteration: nothing
(dequeue timeout), a call `worker_ptr->backend_sink_it_(msg)`, a call
`worker_ptr->backend_flush_()`, loop exit on a terminate envelope, or the
`assert(false)` default branch of the switch. The `failed` flag on the
two backend calls records whether the destination reported a failure
internally — modelled from the spec: the backend operations live in
`async_logger` (not among the sources) and per the spec contain any
destination failure rather than letting it escape into the drain loop. -/
inductive Action where
  | timeout
  | dispatched (target : async_logger_ptr) (payload : log_msg_buffer) (failed : Bool)
  | flushed (target : async_logger_ptr) (failed : Bool)
  | exitLoop
  | assertFail
deriving DecidableEq, Repr

/-- Whether the action dereferences the envelope's target handle. -/
def Action.usesTarget : Action → Bool
  | .dispatched _ _ _ => true
  | .flushed _ _ => true
  | _ => false

/-- Result of `thread_pool::process_next_msg_`: the returned `bool`
("true if this thread should still be active"), the action performed, and
the queue after the at-most-one dequeue of this iteration. -/
structure proc_result where
  active : Bool
  action : Action
  q : mpmc_blocking_queue
deriving DecidableEq, Repr

/-- `thread_pool::process_next_msg_`: one drain-loop iteration.
Dequeues with a timeout; on timeout returns true with no side effect.
Otherwise switches on the message kind exactly as the C++ `switch` does —
on the underlying tag, with a `default: assert(false)` branch that falls
through to `return true`. `backend_fails` says whether the backend call
of this iteration reports an internal destination failure (see
`Action`). -/
def process_next_msg_ (q : mpmc_blocking_queue) (backend_fails : Bool) : proc_result :=
  match q.dequeue_for with
  | none => { active := true, action := .timeout, q := q }
  | some (incoming, q') =>
    if incoming.msg_type.toTag = 0 then
      { active := true
        action := .dispatched incoming.worker_ptr incoming.buffer backend_fails
        q := q' }
    else if incoming.msg_type.toTag = 1 then
      { active := true, action := .flushed incoming.worker_ptr backend_fails, q := q' }
    else if incoming.msg_type.toTag = 2 then
      { active := false, action := .exitLoop, q := q' }
    else
      { active := true, action := .assertFail, q := q' }

/-- Drain-loop state of one worker thread (spec §4.3: {Running, Exited}). -/
inductive worker_status where
  | running
  | exited
deriving DecidableEq, Repr

/-- One worker thread of the pool, with a ghost count of the terminate
envelopes it has consumed. -/
structure worker_state where
  status : worker_status
  terminates_received : Nat
deriving DecidableEq, Repr

/-- A freshly started worker: running, no terminate seen. -/
def worker_state.spawn : worker_state :=
  { status := .running, terminates_received := 0 }

/-- The pool state: the queue it exclusively owns and its fixed vector of
worker threads (`std::vector<std::thread> threads_`). -/
structure thread_pool where
  q : mpmc_blocking_queue
  threads_ : List worker_state
deriving DecidableEq, Repr

/-- The error message thrown by the `thread_pool` constructor for an
invalid worker count. -/
def invalid_threads_msg : String :=
  "spdlog::thread_pool(): invalid threads_n param (valid range is 1-1000)"

/-- The `thread_pool(size_t q_max_items, size_t threads_n, ...)`
constructor: initializes the queue with `q_max_items`, throws
`spdlog_ex` when `threads_n == 0 || threads_n > 1000` before starting any
thread, and otherwise starts exactly `threads_n` workers, each entering
`worker_loop_`. -/
def thread_pool.construct (q_max_items threads_n : Nat) : Except String thread_pool :=
  if threads_n = 0 ∨ 1000 < threads_n then
    .error invalid_threads_msg
  else
    .ok { q := mpmc_blocking_queue.init q_max_items
          threads_ := List.replicate threads_n worker_state.spawn }

/-- One step of the destructor `~thread_pool` as a sequential program:
first a submission of one terminate envelope per worker, then a join of
each worker. -/
inductive dtor_action where
  | submit (m : async_msg) (pol : async_overflow_policy)
  | join (i : Nat)
deriving DecidableEq, Repr

/-- The sequence of actions `~thread_pool` performs, in program order:
`threads_.size()` calls
`post_async_msg_(async_msg(async_msg_type::terminate), async_overflow_policy::block)`
followed by `t.join()` for each thread. -/
def destructor_actions (p : thread_pool) : List dtor_action :=
  List.replicate p.threads_.length
      (dtor_action.submit (async_msg.ofType .terminate) .block)
    ++ (List.range p.threads_.length).map dtor_action.join

/-- Just the submissions of the destructor (first phase). -/
def destructor_submissions (p : thread_pool) : List (async_msg × async_overflow_policy) :=
  List.replicate p.threads_.length (async_msg.ofType .terminate, .block)

/-- The first still-running worker consumes the envelope whose processing
result is `r`: if the iteration told the thread to stay active it keeps
running, otherwise it transitions to Exited, counting the terminate it
received. Exited workers take no further steps. -/
def exit_first_running : List worker_state → List worker_state
  | [] => []
  | w :: ws =>
    if w.status = .running then
      { status := .exited, terminates_received := w.terminates_received + 1 } :: ws
    else
      w :: exit_first_running ws

/-- One scheduled drain step of the pool: the first still-running worker
runs `process_next_msg_` on the shared queue; if the iteration returns
false that worker exits. -/
def pool_consume (p : thread_pool) (backend_fails : Bool) : thread_pool :=
  let r := process_next_msg_ p.q backend_fails
  { q := r.q
    threads_ := if r.active then p.threads_ else exit_first_running p.threads_ }

/-- One round of the shutdown interleaving used to realize the protocol of
§4.4: the destructor's blocking submission of one terminate envelope,
then one drain step by some running worker. -/
def shutdown_round (p : thread_pool) : thread_pool :=
  let p1 : thread_pool :=
    match post_async_msg_ p.q (async_msg.ofType .terminate) .block with
    | some q' => { p with q := q' }
    | none => p
  pool_consume p1 false

/-- `k` rounds of the shutdown interleaving. -/
def shutdown_run : Nat → thread_pool → thread_pool
  | 0, p => p
  | k + 1, p => shutdown_run k (shutdown_round p)

/-- An operation in a history of the queue: a blocking enqueue, a
non-blocking enqueue, or a worker dequeue. -/
inductive q_op where
  | enqB (m : async_msg)
  | enqNW (m : async_msg)
  | deq
deriving DecidableEq, Repr

/-- Queue state together with its ghost history: the envelopes that were
actually inserted (`pushed`, in insertion order) and the envelopes handed
to workers (`popped`, in pop order). -/
structure q_trace_state where
  qs : mpmc_blocking_queue
  pushed : List async_msg
  popped : List async_msg
deriving DecidableEq, Repr

/-- Initial trace state over an empty queue of the given capacity. -/
def q_trace_state.start (cap : Nat) : q_trace_state :=
  { qs := mpmc_blocking_queue.init cap, pushed := [], popped := [] }

/-- One operation of a queue history. A blocking enqueue whose producer is
still suspended (queue full) has not completed and changes nothing; a
non-blocking enqueue on a full queue discards the incoming envelope
(which never enters the queue); a dequeue pops the FIFO head and hands
the moved-out envelope to the dequeuing worker. -/
def q_trace_step (s : q_trace_state) : q_op → q_trace_state
  | .enqB m =>
    match s.qs.enqueue m with
    | some q' => { qs := q', pushed := s.pushed ++ [m], popped := s.popped }
    | none => s
  | .enqNW m =>
    if s.qs.items.length < s.qs.max_items then
      { qs := s.qs.enqueue_nowait m, pushed := s.pushed ++ [m], popped := s.popped }
    else
      { qs := s.qs.enqueue_nowait m, pushed := s.pushed, popped := s.popped }
  | .deq =>
    match s.qs.dequeue_for with
    | some (m, q') => { qs := q', pushed := s.pushed, popped := s.popped ++ [m] }
    | none => s

/-- Run a whole queue history from a state. -/
def q_trace_run (ops : List q_op) (s : q_trace_state) : q_trace_state :=
  ops.foldl q_trace_step s

/-- The envelopes a history attempts to enqueue, in order. -/
def q_ops_msgs : List q_op → List async_msg
  | [] => []
  | .enqB m :: ops => m :: q_ops_msgs ops
  | .enqNW m :: ops => m :: q_ops_msgs ops
  | .deq :: ops => q_ops_msgs ops

/-- Modelled from the spec: the fail-fast check for submission after
shutdown has begun (§7, "Shutdown race"). In the repository this check
lives in the `async_logger` caller layer (not among the sources under
verification), which reaches the pool through a weak handle and reports a
"pool stopped" condition instead of submitting once shutdown has begun;
the submission neither hangs nor enqueues in that case. -/
def submit_to_pool (shutdown_started : Bool) (q : mpmc_blocking_queue)
    (m : async_msg) (pol : async_overflow_policy) :
    Except String (Option mpmc_blocking_queue) :=
  if shutdown_started then
    .error "pool stopped"
  else
    .ok (post_async_msg_ q m pol)

/-- Claim C1: constructing a `thread_pool` with `threads_n = 0` or
`threads_n > 1000` fails with the configuration error before any worker
thread is started; for every `threads_n` in 1..1000 construction succeeds
and starts exactly `threads_n` running workers. -/
theorem construct_validates_threads_n (cap n : Nat) :
    ((n = 0 ∨ 1000 < n) → thread_pool.construct cap n = .error invalid_threads_msg) ∧
    (1 ≤ n → n ≤ 1000 →
      ∃ p, thread_pool.construct cap n = .ok p ∧
        p.threads_.length = n ∧
        p.q = mpmc_blocking_queue.init cap ∧
        ∀ w ∈ p.threads_, w.status = .running) := by
  constructor
  · intro h
    simp only [thread_pool.construct, if_pos h]
  · intro h1 h2
    have hcond : ¬(n = 0 ∨ 1000 < n) := by omega
    refine ⟨{ q := mpmc_blocking_queue.init cap
              threads_ := List.replicate n worker_state.spawn },
      by simp only [thread_pool.construct, if_neg hcond], ?_, rfl, ?_⟩
    · simp
    · intro w hw
      have := List.eq_of_mem_replicate hw
      simp [this, worker_state.spawn]

/-- Witness for C1 at concrete inputs: `threads_n = 0` is rejected,
`threads_n = 3` yields three running workers. -/
theorem construct_validates_threads_n_witness :
    thread_pool.construct 8 0 = .error invalid_threads_msg ∧
    ∃ p, thread_pool.construct 8 3 = .ok p ∧
      p.threads_.length = 3 ∧
      p.q = mpmc_blocking_queue.init 8 ∧
      ∀ w ∈ p.threads_, w.status = .running :=
  ⟨(construct_validates_threads_n 8 0).1 (Or.inl rfl),
   (construct_validates_threads_n 8 3).2 (by omega) (by omega)⟩

/-- Claim C4: `post_async_msg_` dispatches on exactly the two overflow
policies: the block policy performs the blocking enqueue, which never
drops the envelope (inserting it at the tail whenever it completes, and
suspending the producer on a full queue); the discard policy performs the
non-blocking enqueue, which never suspends and on a full queue discards
the envelope and increments the overrun counter. -/
theorem post_async_msg_policy_dispatch (q : mpmc_blocking_queue) (m : async_msg) :
    (post_async_msg_ q m .block = q.enqueue m ∧
      (∀ q', q.enqueue m = some q' →
        q'.items = q.items ++ [m] ∧ q'.overrun = q.overrun ∧
          q'.max_items = q.max_items) ∧
      (q.max_items ≤ q.items.length → q.enqueue m = none)) ∧
    (post_async_msg_ q m .discard = some (q.enqueue_nowait m) ∧
      (q.max_items ≤ q.items.length →
        q.enqueue_nowait m = { q with overrun := q.overrun + 1 }) ∧
      (q.items.length < q.max_items →
        q.enqueue_nowait m = { q with items := q.items ++ [m] })) := by
  refine ⟨⟨rfl, ?_, ?_⟩, rfl, ?_, ?_⟩
  · intro q' hq'
    unfold mpmc_blocking_queue.enqueue at hq'
    split at hq'
    · cases hq'
      exact ⟨rfl, rfl, rfl⟩
    · cases hq'
  · intro hfull
    unfold mpmc_blocking_queue.enqueue
    rw [if_neg (by omega)]
  · intro hfull
    unfold mpmc_blocking_queue.enqueue_nowait
    rw [if_neg (by omega)]
  · intro hroom
    unfold mpmc_blocking_queue.enqueue_nowait
    rw [if_pos hroom]

/-- Witness for C4 at a concrete full queue of capacity 1: the blocking
enqueue suspends, the non-blocking one discards and counts. -/
theorem post_async_msg_policy_dispatch_witness :
    (({ max_items := 1, items := [async_msg.ofType .flush], overrun := 0 } :
        mpmc_blocking_queue).enqueue (async_msg.ofType .log) = none) ∧
    (({ max_items := 1, items := [async_msg.ofType .flush], overrun := 0 } :
        mpmc_blocking_queue).enqueue_nowait (async_msg.ofType .log) =
      { max_items := 1, items := [async_msg.ofType .flush], overrun := 1 }) :=
  ⟨((post_async_msg_policy_dispatch
      { max_items := 1, items := [async_msg.ofType .flush], overrun := 0 }
      (async_msg.ofType .log)).1).2.2 (by decide),
   ((post_async_msg_policy_dispatch
      { max_items := 1, items := [async_msg.ofType .flush], overrun := 0 }
      (async_msg.ofType .log)).2).2.1 (by decide)⟩

/-- Claim C5: a submission attempted after pool shutdown has begun fails
fast with the "pool stopped" condition instead of hanging or silently
enqueueing; before shutdown it performs the normal policy-directed
enqueue. -/
theorem submission_after_shutdown_fails_fast (q : mpmc_blocking_queue)
    (m : async_msg) (pol : async_overflow_policy) :
    submit_to_pool true q m pol = .error "pool stopped" ∧
    submit_to_pool false q m pol = .ok (post_async_msg_ q m pol) := by
  exact ⟨rfl, rfl⟩

/-- Claim C7: the message kind is a closed sum — every envelope's
`msg_type` is `log`, `flush` or `terminate` — and the drain loop's
`default: assert(false)` branch is unreachable: no iteration of
`process_next_msg_` ever produces the assertion-failure action. -/
theorem msg_type_closed_no_assert_reachable (m : async_msg)
    (q : mpmc_blocking_queue) (fails : Bool) :
    (m.msg_type = .log ∨ m.msg_type = .flush ∨ m.msg_type = .terminate) ∧
    (process_next_msg_ q fails).action ≠ Action.assertFail := by
  constructor
  · cases m.msg_type
    · exact Or.inl rfl
    · exact Or.inr (Or.inl rfl)
    · exact Or.inr (Or.inr rfl)
  · unfold process_next_msg_
    match hdeq : q.dequeue_for with
    | none => simp
    | some (inc, q') =>
      cases htype : inc.msg_type <;> simp [async_msg_type.toTag, htype]

/-- Claim C8: `post_log` builds a `Log` envelope whose payload is a
self-contained copy of the record (same text, envelope-owned storage, no
reference into the producer's stack), transfers ownership of the target
into the envelope (the envelope's `worker_ptr` holds the handle and the
caller's pointer is null after the call), and enqueues that envelope via
`post_async_msg_` under the given policy. -/
theorem post_log_owns_copy_and_target (q : mpmc_blocking_queue)
    (wp : async_logger_ptr) (msg : log_msg) (pol : async_overflow_policy) :
    (post_log q wp msg pol).moved_env.msg_type = .log ∧
    (post_log q wp msg pol).moved_env.buffer.text = msg.text ∧
    (post_log q wp msg pol).moved_env.buffer.storage = .selfContained ∧
    (post_log q wp msg pol).moved_env.worker_ptr = wp ∧
    (post_log q wp msg pol).residual_ptr = none ∧
    (post_log q wp msg pol).queued =
      post_async_msg_ q ((post_log q wp msg pol).moved_env) pol := by
  exact ⟨rfl, rfl, rfl, rfl, rfl, rfl⟩

/-- Claim C3: each drain-loop iteration consumes at most one envelope and
follows the §4.3 state machine: on dequeue timeout the worker stays
active with no side effect and the queue untouched; a `Log` envelope
triggers the dispatch-to-destinations call and the worker stays active; a
`Flush` envelope triggers the flush-all-destinations call and the worker
stays active; a `Terminate` envelope ends the loop; and these are the
only behaviours. -/
theorem process_next_msg_state_machine (q : mpmc_blocking_queue) (fails : Bool) :
    (q.items = [] →
      process_next_msg_ q fails = { active := true, action := .timeout, q := q }) ∧
    (∀ m rest, q.items = m :: rest →
      (process_next_msg_ q fails).q = { q with items := rest } ∧
      (m.msg_type = .log → process_next_msg_ q fails =
        { active := true
          action := .dispatched m.worker_ptr m.buffer fails
          q := { q with items := rest } }) ∧
      (m.msg_type = .flush → process_next_msg_ q fails =
        { active := true
          action := .flushed m.worker_ptr fails
          q := { q with items := rest } }) ∧
      (m.msg_type = .terminate → process_next_msg_ q fails =
        { active := false, action := .exitLoop, q := { q with items := rest } })) := by
  constructor
  · intro h
    unfold process_next_msg_ mpmc_blocking_queue.dequeue_for
    rw [h]
  · intro m rest h
    have hd : q.dequeue_for = some (m, { q with items := rest }) := by
      unfold mpmc_blocking_queue.dequeue_for
      rw [h]
    refine ⟨?_, ?_, ?_, ?_⟩
    · unfold process_next_msg_
      rw [hd]
      cases htype : m.msg_type <;> simp [htype, async_msg_type.toTag]
    · intro ht
      unfold process_next_msg_
      rw [hd]
      simp [ht, async_msg_type.toTag]
    · intro ht
      unfold process_next_msg_
      rw [hd]
      simp [ht, async_msg_type.toTag]
    · intro ht
      unfold process_next_msg_
      rw [hd]
      simp [ht, async_msg_type.toTag]

/-- Witness for C3 on concrete queues: the timeout self-loop and the
terminate transition. -/
theorem process_next_msg_state_machine_witness :
    process_next_msg_ { max_items := 2, items := [] } false =
      { active := true, action := .timeout, q := { max_items := 2, items := [] } } ∧
    process_next_msg_ { max_items := 2, items := [async_msg.ofType .terminate] } false =
      { active := false, action := .exitLoop, q := { max_items := 2, items := [] } } :=
  ⟨(process_next_msg_state_machine { max_items := 2, items := [] } false).1 rfl,
   ((process_next_msg_state_machine
      { max_items := 2, items := [async_msg.ofType .terminate] } false).2
      (async_msg.ofType .terminate) [] rfl).2.2.2 rfl⟩

/-- Claim C6: a destination failure during the dispatch or flush call of a
`Log` or `Flush` envelope does not end the worker's drain loop — the
iteration still reports the worker as active, whatever the backend
failure flag says. -/
theorem backend_failure_keeps_worker_running (q : mpmc_blocking_queue)
    (m : async_msg) (rest : List async_msg) (fails : Bool)
    (h : q.items = m :: rest)
    (hk : m.msg_type = .log ∨ m.msg_type = .flush) :
    (process_next_msg_ q fails).active = true := by
  have hd : q.dequeue_for = some (m, { q with items := rest }) := by
    unfold mpmc_blocking_queue.dequeue_for
    rw [h]
  unfold process_next_msg_
  rw [hd]
  rcases hk with hk | hk <;> simp [hk, async_msg_type.toTag]

/-- Witness for C6: a failing dispatch of a concrete `Log` envelope
leaves the worker active. -/
theorem backend_failure_keeps_worker_running_witness :
    (process_next_msg_ { max_items := 4, items := [async_msg.ofType .log] }
      true).active = true :=
  backend_failure_keeps_worker_running
    { max_items := 4, items := [async_msg.ofType .log] }
    (async_msg.ofType .log) [] true rfl (Or.inl rfl)

/-- Claim C10: a `Terminate` envelope is always built with a null target —
the destructor's submissions all carry `worker_ptr = none` — and the drain
loop never dereferences the target while processing a terminate envelope,
while `Log` and `Flush` processing does dereference it (so the non-null
precondition concerns only those submissions). -/
theorem terminate_envelopes_null_target_safe :
    (async_msg.ofType .terminate).worker_ptr = none ∧
    (∀ p : thread_pool, ∀ x ∈ destructor_submissions p,
      x.1.worker_ptr = none ∧ x.1.msg_type = .terminate ∧ x.2 = .block) ∧
    (∀ q m rest fails, q.items = m :: rest →
      (m.msg_type = .terminate →
        (process_next_msg_ q fails).action.usesTarget = false) ∧
      ((m.msg_type = .log ∨ m.msg_type = .flush) →
        (process_next_msg_ q fails).action.usesTarget = true)) := by
  refine ⟨rfl, ?_, ?_⟩
  · intro p x hx
    have := List.eq_of_mem_replicate hx
    rw [this]
    exact ⟨rfl, rfl, rfl⟩
  · intro q m rest fails h
    have hd : q.dequeue_for = some (m, { q with items := rest }) := by
      unfold mpmc_blocking_queue.dequeue_for
      rw [h]
    constructor
    · intro ht
      unfold process_next_msg_
      rw [hd]
      simp [ht, async_msg_type.toTag, Action.usesTarget]
    · intro hk
      unfold process_next_msg_
      rw [hd]
      rcases hk with hk | hk <;> simp [hk, async_msg_type.toTag, Action.usesTarget]

/-- Witness for C10: processing a concrete terminate envelope (with its
null target) touches no target handle. -/
theorem terminate_envelopes_null_target_safe_witness :
    (process_next_msg_ { max_items := 4, items := [async_msg.ofType .terminate] }
      false).action.usesTarget = false :=
  (terminate_envelopes_null_target_safe.2.2
    { max_items := 4, items := [async_msg.ofType .terminate] }
    (async_msg.ofType .terminate) [] false rfl).1 rfl

/-- Already-exited workers take no step: `exit_first_running` passes over
an exited prefix untouched. -/
theorem exit_first_running_skips_exited (i : Nat) (l : List worker_state) :
    exit_first_running
      (List.replicate i { status := .exited, terminates_received := 1 } ++ l) =
    List.replicate i { status := .exited, terminates_received := 1 } ++
      exit_first_running l := by
  induction i with
  | zero => simp
  | succ j ih =>
    simp only [List.replicate_succ, List.cons_append, exit_first_running]
    rw [if_neg (by simp)]
    simp only [List.append_eq]
    rw [ih]

/-- A block of copies of `x` absorbs one more copy appended after it. -/
theorem replicate_commute_cons {α : Type} (x y : α) (i k : Nat) :
    List.replicate i x ++ x :: List.replicate k y =
      x :: List.replicate i x ++ List.replicate k y := by
  induction i with
  | zero => simp
  | succ j ih => simp [List.replicate_succ, List.cons_append, ih]

/-- One round of the shutdown interleaving: with an empty queue of
positive capacity, the blocking terminate submission completes and the
first still-running worker consumes it and exits with exactly one
terminate received. -/
theorem shutdown_round_exits_one (q : mpmc_blocking_queue) (hq : q.items = [])
    (hcap : 0 < q.max_items) (i k : Nat) :
    shutdown_round
      { q := q
        threads_ :=
          List.replicate i { status := .exited, terminates_received := 1 } ++
            List.replicate (k + 1) worker_state.spawn } =
      { q := q
        threads_ :=
          List.replicate (i + 1) { status := .exited, terminates_received := 1 } ++
            List.replicate k worker_state.spawn } := by
  obtain ⟨mx, its, ov⟩ := q
  simp only [mpmc_blocking_queue.items] at hq
  subst hq
  simp only [mpmc_blocking_queue.max_items] at hcap
  have hpost : post_async_msg_ ⟨mx, [], ov⟩ (async_msg.ofType .terminate) .block =
      some ⟨mx, [async_msg.ofType .terminate], ov⟩ := by
    unfold post_async_msg_ mpmc_blocking_queue.enqueue
    simp [hcap]
  have hstep : process_next_msg_ ⟨mx, [async_msg.ofType .terminate], ov⟩ false =
      { active := false, action := .exitLoop, q := ⟨mx, [], ov⟩ } := by
    unfold process_next_msg_ mpmc_blocking_queue.dequeue_for
    simp [async_msg.ofType, async_msg.mkCtl, async_msg_type.toTag]
  unfold shutdown_round
  rw [hpost]
  unfold pool_consume
  simp only [hstep]
  rw [if_neg (by simp)]
  rw [exit_first_running_skips_exited]
  simp only [List.replicate_succ, exit_first_running, worker_state.spawn]
  simp [replicate_commute_cons]

/-- Running the shutdown interleaving for as many rounds as there are
still-running workers exits them all, each having received exactly one
terminate envelope, and returns the queue to its empty state. -/
theorem shutdown_run_exits_all (q : mpmc_blocking_queue) (hq : q.items = [])
    (hcap : 0 < q.max_items) :
    ∀ k i, shutdown_run k
      { q := q
        threads_ :=
          List.replicate i { status := .exited, terminates_received := 1 } ++
            List.replicate k worker_state.spawn } =
      { q := q
        threads_ :=
          List.replicate (i + k) { status := .exited, terminates_received := 1 } } := by
  intro k
  induction k with
  | zero => intro i; simp [shutdown_run]
  | succ j ih =>
    intro i
    show shutdown_run j _ = _
    rw [shutdown_round_exits_one q hq hcap i j, ih (i + 1)]
    have harith : i + 1 + j = i + (j + 1) := by omega
    rw [harith]

/-- Claim C2: for a pool constructed with `n` workers, the destructor
submits exactly `n` `Terminate` envelopes, every one with the blocking
policy, and all submissions precede every join in its program order; and
running the shutdown leaves every one of the `n` workers Exited having
received exactly one terminate envelope each, with the queue drained. -/
theorem destructor_shutdown_protocol (cap n : Nat) (p : thread_pool)
    (hc : thread_pool.construct cap n = .ok p) (hcap : 0 < cap) :
    destructor_submissions p =
      List.replicate n (async_msg.ofType .terminate, async_overflow_policy.block) ∧
    destructor_actions p =
      List.replicate n (dtor_action.submit (async_msg.ofType .terminate) .block) ++
        (List.range n).map dtor_action.join ∧
    (shutdown_run n p).threads_ =
      List.replicate n { status := worker_status.exited, terminates_received := 1 } ∧
    (shutdown_run n p).q.items = [] := by
  unfold thread_pool.construct at hc
  split at hc
  · cases hc
  · cases hc
    have hrun := shutdown_run_exits_all (mpmc_blocking_queue.init cap) rfl
      (by simpa [mpmc_blocking_queue.init] using hcap) n 0
    simp only [List.replicate_zero, List.nil_append, Nat.zero_add] at hrun
    refine ⟨?_, ?_, ?_, ?_⟩
    · simp [destructor_submissions]
    · simp [destructor_actions]
    · rw [hrun]
    · rw [hrun]
      rfl

/-- Witness for C2: a pool of two workers over a capacity-1 queue is shut
down with two blocking terminate envelopes and both workers exit exactly
once. -/
theorem destructor_shutdown_protocol_witness :
    destructor_submissions
      { q := mpmc_blocking_queue.init 1
        threads_ := List.replicate 2 worker_state.spawn } =
      List.replicate 2 (async_msg.ofType .terminate, async_overflow_policy.block) ∧
    (shutdown_run 2
      { q := mpmc_blocking_queue.init 1
        threads_ := List.replicate 2 worker_state.spawn }).threads_ =
      List.replicate 2 { status := worker_status.exited, terminates_received := 1 } :=
  ⟨(destructor_shutdown_protocol 1 2 _ rfl (by omega)).1,
   (destructor_shutdown_protocol 1 2 _ rfl (by omega)).2.2.1⟩

/-- One queue operation preserves the history invariant: everything ever
inserted is exactly what was handed out followed by what is still
stored, in FIFO order. -/
theorem q_trace_step_invariant (s : q_trace_state) (op : q_op)
    (h : s.pushed = s.popped ++ s.qs.items) :
    (q_trace_step s op).pushed =
      (q_trace_step s op).popped ++ (q_trace_step s op).qs.items := by
  cases op with
  | enqB m =>
    simp only [q_trace_step]
    split
    · next q' henq =>
      have hq' : q'.items = s.qs.items ++ [m] := by
        unfold mpmc_blocking_queue.enqueue at henq
        split at henq
        · cases henq
          rfl
        · cases henq
      simp [hq', h]
    · exact h
  | enqNW m =>
    simp only [q_trace_step]
    split
    · next hroom =>
      simp [mpmc_blocking_queue.enqueue_nowait, if_pos hroom, h]
    · next hroom =>
      simp [mpmc_blocking_queue.enqueue_nowait, if_neg hroom, h]
  | deq =>
    simp only [q_trace_step]
    split
    · next m q' hdeq =>
      unfold mpmc_blocking_queue.dequeue_for at hdeq
      split at hdeq
      · cases hdeq
      · next m' rest hitems =>
        cases hdeq
        simp [h, hitems]
    · exact h

/-- Whole-history version of the invariant. -/
theorem q_trace_run_invariant (ops : List q_op) (s : q_trace_state)
    (h : s.pushed = s.popped ++ s.qs.items) :
    (q_trace_run ops s).pushed =
      (q_trace_run ops s).popped ++ (q_trace_run ops s).qs.items := by
  induction ops generalizing s with
  | nil => exact h
  | cons op rest ih => exact ih (q_trace_step s op) (q_trace_step_invariant s op h)

/-- One queue operation inserts an envelope at most as often as the
history offered it. -/
theorem q_trace_step_pushed_count (s : q_trace_state) (op : q_op) (m : async_msg) :
    (q_trace_step s op).pushed.count m ≤
      s.pushed.count m + (q_ops_msgs [op]).count m := by
  cases op with
  | enqB m' =>
    simp only [q_trace_step]
    split
    · simp [q_ops_msgs, List.count_cons]
    · simp [q_ops_msgs]
  | enqNW m' =>
    simp only [q_trace_step]
    split
    · simp [q_ops_msgs, List.count_cons]
    · simp [q_ops_msgs]
  | deq =>
    simp only [q_trace_step, q_ops_msgs]
    split <;> simp

/-- Whole-history version of the insertion-count bound. -/
theorem q_trace_run_pushed_count (ops : List q_op) (s : q_trace_state) (m : async_msg) :
    (q_trace_run ops s).pushed.count m ≤
      s.pushed.count m + (q_ops_msgs ops).count m := by
  induction ops generalizing s with
  | nil => simp [q_trace_run, q_ops_msgs]
  | cons op rest ih =>
    have h1 : (q_trace_run (op :: rest) s).pushed.count m ≤
        (q_trace_step s op).pushed.count m + (q_ops_msgs rest).count m :=
      ih (q_trace_step s op)
    have h2 := q_trace_step_pushed_count s op m
    have h3 : (q_ops_msgs (op :: rest)).count m =
        (q_ops_msgs [op]).count m + (q_ops_msgs rest).count m := by
      cases op <;> simp [q_ops_msgs, List.count_cons] <;> omega
    omega

/-- Claim C9: envelopes move through the queue without duplication or
silent loss: along any history of enqueues and dequeues, the inserted
envelopes are exactly the handed-out ones followed by the stored ones (so
nothing inserted is ever lost — in particular nothing enqueued under the
blocking policy); an envelope is inserted at most as often as it was
submitted, so one submitted once is handed to a worker at most once and
never dispatched twice. -/
theorem envelope_consumed_at_most_once (ops : List q_op) (cap : Nat) (m : async_msg) :
    ((q_trace_run ops (q_trace_state.start cap)).pushed =
      (q_trace_run ops (q_trace_state.start cap)).popped ++
        (q_trace_run ops (q_trace_state.start cap)).qs.items) ∧
    ((q_trace_run ops (q_trace_state.start cap)).pushed.count m ≤
      (q_ops_msgs ops).count m) ∧
    ((q_ops_msgs ops).count m ≤ 1 →
      (q_trace_run ops (q_trace_state.start cap)).popped.count m ≤ 1) ∧
    (m ∈ (q_trace_run ops (q_trace_state.start cap)).pushed →
      m ∈ (q_trace_run ops (q_trace_state.start cap)).popped ∨
        m ∈ (q_trace_run ops (q_trace_state.start cap)).qs.items) := by
  have hinv := q_trace_run_invariant ops (q_trace_state.start cap)
    (by simp [q_trace_state.start, mpmc_blocking_queue.init])
  have hcount : (q_trace_run ops (q_trace_state.start cap)).pushed.count m ≤
      (q_ops_msgs ops).count m := by
    have := q_trace_run_pushed_count ops (q_trace_state.start cap) m
    simpa [q_trace_state.start] using this
  refine ⟨hinv, hcount, ?_, ?_⟩
  · intro h1
    have hle : (q_trace_run ops (q_trace_state.start cap)).popped.count m ≤
        (q_trace_run ops (q_trace_state.start cap)).pushed.count m := by
      rw [hinv]
      simp [List.count_append]
    omega
  · intro hmem
    rw [hinv] at hmem
    exact List.mem_append.mp hmem

/-- Witness for C9: one blocking enqueue followed by one dequeue in a
capacity-1 queue hands the envelope out exactly once and loses nothing. -/
theorem envelope_consumed_at_most_once_witness :
    ((q_trace_run [q_op.enqB (async_msg.ofType .log), q_op.deq]
      (q_trace_state.start 1)).popped.count (async_msg.ofType .log) ≤ 1) ∧
    ((async_msg.ofType .log) ∈
        (q_trace_run [q_op.enqB (async_msg.ofType .log), q_op.deq]
          (q_trace_state.start 1)).popped ∨
      (async_msg.ofType .log) ∈
        (q_trace_run [q_op.enqB (async_msg.ofType .log), q_op.deq]
          (q_trace_state.start 1)).qs.items) :=
  ⟨(envelope_consumed_at_most_once [q_op.enqB (async_msg.ofType .log), q_op.deq] 1
      (async_msg.ofType .log)).2.2.1 (by decide),
   (envelope_consumed_at_most_once [q_op.enqB (async_msg.ofType .log), q_op.deq] 1
      (async_msg.ofType .log)).2.2.2 (by decide)⟩

end Spdlog
